import Mathlib

/-
Verification development for the audio-greeting-app repository.

Two subsystems are embedded here, both translated directly from the
TypeScript source:

1. The proxy/auth server. The authoritative file for the authentication
   middleware and the route wiring that uses it is the server variant in
   src/unnamed/part_009 (the variant that defines authenticateToken and
   mounts it on POST /api/voices and POST /api/tts/:voice_id); the
   registration and login handlers there agree with src/server/server.ts
   up to message strings, and we follow part_009 throughout.

2. The playback/visualization engine of
   src/src/components/AudioPlayer.tsx, embedded as a state record plus
   one pure function per event handler / effect body / effect cleanup,
   sequenced in the order the React runtime runs them.

JavaScript strings are modelled as Lean String; the toLowerCase calls in
the server operate on emails, for which the ASCII case mapping below is
the relevant fragment. Media durations (which in the browser can be NaN,
Infinity, or a finite number) are modelled by an explicit inductive with
a rational payload. Node identities are natural numbers drawn from a
fresh-id counter, so that the set of currently connected nodes is a
plain list and counting bound nodes is meaningful.
-/

namespace AudioGreeting

/- ===================== ASCII lowercase model ===================== -/

/-- Model of the JavaScript String.prototype.toLowerCase case mapping on a
single character, restricted to the ASCII range that is relevant for the
email addresses handled by the server: codepoints 65..90 map 32 up. -/
def lowChar (c : Char) : Char :=
  if 65 ≤ c.toNat ∧ c.toNat ≤ 90 then Char.ofNat (c.toNat + 32) else c

/-- Model of email.toLowerCase() in the server handlers. -/
def lowerStr (s : String) : String :=
  String.mk (s.data.map lowChar)

theorem toNat_ofNat_valid (n : Nat) (h : n.isValidChar) :
    (Char.ofNat n).toNat = n := by
  unfold Char.ofNat
  rw [dif_pos h]
  rfl

theorem lowChar_idem (c : Char) : lowChar (lowChar c) = lowChar c := by
  unfold lowChar
  by_cases h : 65 ≤ c.toNat ∧ c.toNat ≤ 90
  · rw [if_pos h]
    have hv : (c.toNat + 32).isValidChar := by
      left
      omega
    have ht : (Char.ofNat (c.toNat + 32)).toNat = c.toNat + 32 :=
      toNat_ofNat_valid _ hv
    rw [if_neg]
    rw [ht]
    omega
  · rw [if_neg h, if_neg h]

theorem lowerStr_idem (s : String) : lowerStr (lowerStr s) = lowerStr s := by
  unfold lowerStr
  cases s with
  | mk data =>
    simp only [List.map_map]
    congr 1
    apply List.map_congr_left
    intro c _
    exact lowChar_idem c

/- ===================== Server data model ===================== -/

/-- Decoded JWT payload: userId and email claims plus the expiry that
jwt.sign adds from the expiresIn option (part_009 lines 63-68). -/
structure Claims where
  userId : String
  email : String
  exp : Nat
deriving DecidableEq, Repr

/-- Bearer tokens: either a payload signed with some secret, or an
arbitrary non-JWT string. -/
inductive Token where
  | signed (c : Claims) (secret : String)
  | malformed (s : String)
deriving DecidableEq, Repr

/-- Model of jwt.verify(token, secret, cb): succeeds and yields the decoded
claims exactly when the token was signed with the same secret and has not
expired at the current time; fails (the err branch of the callback) on a
wrong signature, an expired token, or a malformed token. -/
def jwtVerify (t : Token) (secret : String) (now : Nat) : Option Claims :=
  match t with
  | Token.signed c s => if s = secret ∧ now < c.exp then some c else none
  | Token.malformed _ => none

/-- Incoming request as seen by the voice/TTS routes. The Authorization
header is modelled as an optional pair of the scheme word and the optional
second word, mirroring the split of authHeader on a space and the take
of index 1 in part_009 lines 81-82; user is the req.user slot the middleware fills. -/
structure Req where
  authHeader : Option (String × Option Token)
  user : Option Claims
  voiceId : String
  text : String
  voiceName : String
  fileCount : Nat
deriving DecidableEq, Repr

/-- Token extraction from part_009 line 82: null when there is no
Authorization header or no second word after the scheme. -/
def extractToken (r : Req) : Option Token :=
  match r.authHeader with
  | none => none
  | some (_, t) => t

/-- Outcome of running the middleware: either it has already answered with
a bare status (res.sendStatus), or it calls next() with the request
enriched by the decoded claims. -/
inductive AuthStep where
  | halt (status : Nat)
  | proceed (r : Req)
deriving DecidableEq, Repr

/-- Translation of authenticateToken, part_009 lines 80-110: missing token
gives 401, missing JWT secret gives 500, failed verification gives 403,
and on success the decoded payload is attached as req.user before next()
runs. -/
def authenticateToken (jwtSecret : Option String) (now : Nat) (r : Req) :
    AuthStep :=
  match extractToken r with
  | none => AuthStep.halt 401
  | some t =>
    match jwtSecret with
    | none => AuthStep.halt 500
    | some sek =>
      match jwtVerify t sek now with
      | none => AuthStep.halt 403
      | some c => AuthStep.proceed { r with user := some c }

/-- Responses produced by the voice/TTS routes. The audioStream and
voiceCreated constructors record the req.user value the handler observed,
so that claim attachment is visible in the result. -/
inductive Res where
  | status (n : Nat)
  | jsonErr (n : Nat) (msg : String)
  | audioStream (voiceId : String) (text : String) (userSeen : Option Claims)
  | voiceCreated (name : String) (userSeen : Option Claims)
deriving DecidableEq, Repr

def keyMissingMsg : String := "API key not configured"

def textRequiredMsg : String := "Text input is required."

def noFilesMsg : String := "No audio files provided for cloning."

def nameRequiredMsg : String := "Voice name is required."

/-- Handler body of POST /api/tts/:voice_id, part_009 lines 308-320 up to
the upstream call: API-key guard, text guard, then forward to the
upstream and stream the audio back. -/
def ttsHandler (apiKeyConfigured : Bool) (r : Req) : Res :=
  if apiKeyConfigured = false then Res.jsonErr 500 keyMissingMsg
  else if r.text = "" then Res.jsonErr 400 textRequiredMsg
  else Res.audioStream r.voiceId r.text r.user

/-- Handler body of POST /api/voices, part_009 lines 254-266 up to the
upstream call: API-key guard, files guard, name guard, then enroll. -/
def addVoiceHandler (apiKeyConfigured : Bool) (r : Req) : Res :=
  if apiKeyConfigured = false then Res.jsonErr 500 keyMissingMsg
  else if r.fileCount = 0 then Res.jsonErr 400 noFilesMsg
  else if r.voiceName = "" then Res.jsonErr 400 nameRequiredMsg
  else Res.voiceCreated r.voiceName r.user

/-- Route pipeline: the middleware runs first and the handler only runs on
the request the middleware passed to next(). -/
def runProtected (jwtSecret : Option String) (now : Nat)
    (handler : Req → Res) (r : Req) : Res :=
  match authenticateToken jwtSecret now r with
  | AuthStep.halt n => Res.status n
  | AuthStep.proceed r2 => handler r2

/-- POST /api/tts/:voice_id as mounted in part_009 line 308. -/
def ttsRoute (apiKeyConfigured : Bool) (jwtSecret : Option String)
    (now : Nat) (r : Req) : Res :=
  runProtected jwtSecret now (ttsHandler apiKeyConfigured) r

/-- POST /api/voices as mounted in part_009 line 254. -/
def addVoiceRoute (apiKeyConfigured : Bool) (jwtSecret : Option String)
    (now : Nat) (r : Req) : Res :=
  runProtected jwtSecret now (addVoiceHandler apiKeyConfigured) r

/- ===================== User store and auth handlers ===================== -/

/-- One row of the single-table user store: id, unique email, and the
bcrypt hash stored in the password column. -/
structure UserRec where
  id : String
  email : String
  password : String
deriving DecidableEq, Repr

/-- Model of prisma.user.findUnique on the email column. -/
def findUser : List UserRec → String → Option UserRec
  | [], _ => none
  | u :: rest, k => if u.email = k then some u else findUser rest k

/-- Model of the id the database generates for a new row; it depends only
on the existing table contents, never on the submitted credentials. -/
def freshId (db : List UserRec) : String := toString db.length

def fieldsRequiredMsg : String := "Email and password are required."

def dupEmailMsg : String := "User with this email already exists."

def regSuccessMsg : String := "User registered successfully!"

def invalidCredMsg : String := "Invalid credentials."

def loginSuccessMsg : String := "Login successful!"

/-- Expiry attached by jwt.sign with expiresIn of one hour, in seconds
(part_009 line 209). -/
def tokenTtl : Nat := 3600

/-- Response of the register handler. -/
inductive RegRes where
  | err (status : Nat) (msg : String)
  | created (msg : String) (userId : String)
deriving DecidableEq, Repr

/-- Translation of registerHandler, part_009 lines 113-159. The hash
argument models bcrypt.hash for the salt the call happens to draw; the
handler is otherwise a direct transcription: empty fields give 400, an
existing row under the lowercased email gives 409 with no insert, and
otherwise a row with the lowercased email and the hashed password is
inserted and only a message and the new user id are returned. -/
def registerHandler (hash : String → String) (db : List UserRec)
    (email password : String) : RegRes × List UserRec :=
  if email = "" ∨ password = "" then (RegRes.err 400 fieldsRequiredMsg, db)
  else
    match findUser db (lowerStr email) with
    | some _ => (RegRes.err 409 dupEmailMsg, db)
    | none =>
      let u : UserRec := ⟨freshId db, lowerStr email, hash password⟩
      (RegRes.created regSuccessMsg u.id, db ++ [u])

/-- Response of the login handler. -/
inductive LoginRes where
  | err (status : Nat) (msg : String)
  | ok (msg : String) (token : Token) (userId : String) (email : String)
  | cfgFail
deriving DecidableEq, Repr

/-- Translation of loginHandler, part_009 lines 162-223: empty fields give
400, a missing JWT secret is a server configuration failure, an unknown
(lowercased) email gives 401 with the generic message, a bcrypt mismatch
gives 401 with the very same generic message, and on success a token
signed with the configured secret and carrying the user id and stored
email is returned. bcrypt.compare(password, stored) is modelled as the
check that the stored column equals the hash of the submitted password
under the same hash model used at registration. -/
def loginHandler (hash : String → String) (jwtSecret : Option String)
    (now : Nat) (db : List UserRec) (email password : String) : LoginRes :=
  if email = "" ∨ password = "" then LoginRes.err 400 fieldsRequiredMsg
  else
    match jwtSecret with
    | none => LoginRes.cfgFail
    | some sek =>
      match findUser db (lowerStr email) with
      | none => LoginRes.err 401 invalidCredMsg
      | some u =>
        if u.password = hash password then
          LoginRes.ok loginSuccessMsg
            (Token.signed ⟨u.id, u.email, now + tokenTtl⟩ sek) u.id u.email
        else LoginRes.err 401 invalidCredMsg

/-- Invariant of the user store: every stored email is a fixed point of
the lowercase mapping. -/
def LowerInv (db : List UserRec) : Prop :=
  ∀ u ∈ db, lowerStr u.email = u.email

/- ===================== Playback engine data model ===================== -/

/-- Lifecycle states of a Web Audio context. -/
inductive CtxState where
  | suspended
  | running
  | closed
deriving DecidableEq, Repr

/-- Duration value a media element can report: NaN before metadata, the
Infinity placeholder some streams report first, or a finite number. -/
inductive MediaDur where
  | nan
  | inf
  | fin (q : Rat)
deriving DecidableEq, Repr

/-- The isFinite check the handlers apply to audio.duration. -/
def MediaDur.isFin : MediaDur → Bool
  | MediaDur.fin _ => true
  | _ => false

/-- State of one mounted AudioPlayer, AudioPlayer.tsx lines 10-24. React
state hooks and the ref cells become record fields. Connected node and
loop identities are drawn from the nextId counter; boundSources,
boundAnalysers and activeLoops are the lists of node ids currently
connected to the media element and of render loops currently live, so
"at most one bound at a time" is a statement about list lengths.
currentLoop is the loop the pending effect-3 cleanup closure would stop
via its isActive flag. -/
structure Player where
  audioUrl : Option String
  isGenerating : Bool
  isPlaying : Bool
  progress : Rat
  duration : Rat
  isLoadingMetadata : Bool
  errorMsg : Option String
  ctx : Option CtxState
  sourceRef : Option Nat
  analyserRef : Option Nat
  animFrame : Option Nat
  currentLoop : Option Nat
  nextId : Nat
  boundSources : List Nat
  boundAnalysers : List Nat
  activeLoops : List Nat
  mediaDuration : MediaDur
  mediaCurrentTime : Rat
deriving DecidableEq, Repr

/-- Translation of ensureAudioContext, AudioPlayer.tsx lines 27-41: reuse
the existing context, otherwise create one (the created argument is the
state the platform constructor yields, or none when construction throws).
The fire-and-forget resume it issues on a suspended context completes
asynchronously and does not change the synchronously observed state, so
it does not appear here; the serialized resume of togglePlayPause is
modelled explicitly below. -/
def ensureAudioContext (created : Option CtxState) (s : Player) :
    Option CtxState × Player :=
  match s.ctx with
  | none =>
    match created with
    | none => (none, s)
    | some c0 => (some c0, { s with ctx := some c0 })
  | some c => (some c, s)

/-- Cleanup of the node-setup effect, AudioPlayer.tsx lines 159-174:
disconnect the source and analyser nodes and null both refs. -/
def effect2Cleanup (s : Player) : Player :=
  let s1 :=
    match s.sourceRef with
    | some i => { s with boundSources := s.boundSources.erase i }
    | none => s
  let s2 :=
    match s1.analyserRef with
    | some i => { s1 with boundAnalysers := s1.boundAnalysers.erase i }
    | none => s1
  { s2 with sourceRef := none, analyserRef := none }

/-- Translation of setupAudioNodes, AudioPlayer.tsx lines 115-141: ensure
the context, skip entirely when a source node is already bound, otherwise
create and connect a fresh source and analyser pair. The catch branch of
the source only fires when createMediaElementSource throws on a
double-bind, which the guard prevents, so the success path is total
here. -/
def setupAudioNodes (created : Option CtxState) (s : Player) : Player :=
  match ensureAudioContext created s with
  | (none, s1) => s1
  | (some _, s1) =>
    if s1.sourceRef.isSome then s1
    else
      let sid := s1.nextId
      let aid := s1.nextId + 1
      { s1 with
          sourceRef := some sid
          analyserRef := some aid
          boundSources := s1.boundSources ++ [sid]
          boundAnalysers := s1.boundAnalysers ++ [aid]
          nextId := s1.nextId + 2 }

/-- Body of the node-setup effect, AudioPlayer.tsx lines 103-157: with no
url the refs are disconnected and nulled (lines 106-113); with a url the
nodes are set up once the element is ready (readyState at least 4, or
later on the canplaythrough event, modelled by the ready flag / the
canPlay step). -/
def effect2Body (created : Option CtxState) (ready : Bool) (s : Player) :
    Player :=
  match s.audioUrl with
  | none => effect2Cleanup s
  | some _ => if ready then setupAudioNodes created s else s

/-- Cleanup of the visualization effect, AudioPlayer.tsx lines 241-248:
set the isActive flag of the loop this effect instance started to false
(ending that loop) and cancel any scheduled animation frame. -/
def visCleanup (s : Player) : Player :=
  let s1 :=
    match s.currentLoop with
    | some i => { s with activeLoops := s.activeLoops.erase i, currentLoop := none }
    | none => s
  { s1 with animFrame := none }

/-- Body of the visualization effect, AudioPlayer.tsx lines 179-238: when
there is no analyser or playback is off, cancel any scheduled frame and
draw the flat baseline; otherwise start one render loop and schedule its
first frame. -/
def visBody (s : Player) : Player :=
  if s.analyserRef.isSome ∧ s.isPlaying = true then
    let lid := s.nextId
    { s with
        activeLoops := s.activeLoops ++ [lid]
        currentLoop := some lid
        animFrame := some lid
        nextId := s.nextId + 1 }
  else { s with animFrame := none }

/-- The state-reset effect that runs when audioUrl changes,
AudioPlayer.tsx lines 44-58, together with the element reload it
triggers (which drops the element duration back to the unknown value). -/
def effect1Reset (s : Player) (url : Option String) : Player :=
  { s with
      audioUrl := url
      isPlaying := false
      progress := 0
      duration := 0
      errorMsg := none
      isLoadingMetadata := url.isSome
      mediaDuration := MediaDur.nan }

/-- Unmount cleanup of the context effect, AudioPlayer.tsx lines 254-264:
close the context only when one exists and is not already closed, then
drop the ref. The second component counts close attempts. -/
def ctxCleanup (s : Player) : Player × Nat :=
  match s.ctx with
  | some c =>
    if c = CtxState.closed then ({ s with ctx := none }, 0)
    else ({ s with ctx := none }, 1)
  | none => ({ s with ctx := none }, 0)

/-- Full teardown at unmount: React runs the effect cleanups in mount
order, so the node cleanup (lines 159-174), then the visualization
cleanup (lines 241-248), then the context cleanup (lines 254-264). The
second component counts context close attempts. -/
def teardown (s : Player) : Player × Nat :=
  ctxCleanup (visCleanup (effect2Cleanup s))

/- ===================== Transport control ===================== -/

/-- Externally observable transport events emitted by togglePlayPause, in
the order the code sequences them: resumeDone is the completion of the
awaited context.resume(), playCmd and pauseCmd are the calls into the
media element. -/
inductive TEv where
  | resumeDone
  | playCmd
  | pauseCmd
deriving DecidableEq, Repr

/-- Translation of togglePlayPause, AudioPlayer.tsx lines 298-332: the
guard on line 300 makes the call a no-op with no source, while
generating, while metadata is loading, or in an error state; otherwise
the context is ensured and, when it is suspended, play or pause is
issued only inside the continuation of context.resume(); mediaPaused is
the audio.paused flag of the element. -/
def togglePlayPause (created : Option CtxState) (mediaPaused : Bool)
    (s : Player) : Player × List TEv :=
  if s.audioUrl = none ∨ s.isGenerating = true ∨ s.isLoadingMetadata = true
      ∨ s.errorMsg ≠ none then
    (s, [])
  else
    match ensureAudioContext created s with
    | (some CtxState.suspended, s1) =>
      let s2 := { s1 with ctx := some CtxState.running }
      if mediaPaused then
        ({ s2 with isPlaying := true }, [TEv.resumeDone, TEv.playCmd])
      else
        ({ s2 with isPlaying := false }, [TEv.resumeDone, TEv.pauseCmd])
    | (_, s1) =>
      if mediaPaused then
        ({ s1 with isPlaying := true }, [TEv.playCmd])
      else
        ({ s1 with isPlaying := false }, [TEv.pauseCmd])

/-- Context evolution over the emitted events: the completion of resume
leaves the context running; play and pause do not change it. -/
def ctxAfterEv : Option CtxState → TEv → Option CtxState
  | _, TEv.resumeDone => some CtxState.running
  | c, _ => c

/-- Checks along an event list that every playCmd is executed while the
context, as evolved by the earlier events, is not suspended. -/
def playNeverSuspended : Option CtxState → List TEv → Bool
  | _, [] => true
  | c, e :: rest =>
    (decide (e = TEv.playCmd → c ≠ some CtxState.suspended))
      && playNeverSuspended (ctxAfterEv c e) rest

/- ===================== Media event handlers ===================== -/

/-- Translation of handleLoadedMetadata, AudioPlayer.tsx lines 65-75: a
finite reported duration is accepted (state duration set, the loading
latch cleared, the error cleared); a non-finite one is ignored pending
durationchange. -/
def handleLoadedMetadata (s : Player) (d : MediaDur) : Player :=
  match d with
  | MediaDur.fin q =>
    { s with duration := q, isLoadingMetadata := false, errorMsg := none }
  | _ => s

/-- Translation of handleDurationChange, AudioPlayer.tsx lines 76-83: the
reported duration is accepted only when it is finite and strictly
positive. -/
def handleDurationChange (s : Player) (d : MediaDur) : Player :=
  match d with
  | MediaDur.fin q =>
    if 0 < q then
      { s with duration := q, isLoadingMetadata := false, errorMsg := none }
    else s
  | _ => s

/-- Translation of handleSeek, AudioPlayer.tsx lines 342-349: when the
element duration is finite, assign the raw requested time to
audio.currentTime and mirror the same raw value into the progress state
immediately; otherwise do nothing. -/
def handleSeek (s : Player) (x : Rat) : Player :=
  if (s.mediaDuration.isFin) = true then
    { s with mediaCurrentTime := x, progress := x }
  else s

/- ===================== Load sequencing ===================== -/

/-- Primitive scheduler steps of the mounted player: the reset effect, the
cleanup and body of the node-setup effect, the cleanup and body of the
visualization effect, and the canplaythrough event, which calls
setupAudioNodes directly. -/
inductive PStep where
  | reset (url : Option String)
  | e2Clean
  | e2Body (ready : Bool)
  | visClean
  | visBody
  | canPlay
deriving DecidableEq, Repr

/-- Effect of a single primitive step on the player state. -/
def stepApply (created : Option CtxState) : PStep → Player → Player
  | PStep.reset url, s => effect1Reset s url
  | PStep.e2Clean, s => effect2Cleanup s
  | PStep.e2Body ready, s => effect2Body created ready s
  | PStep.visClean, s => visCleanup s
  | PStep.visBody, s => visBody s
  | PStep.canPlay, s => setupAudioNodes created s

/-- All states passed through while running a step list: the state after
every primitive step, in order. -/
def statesAlong (created : Option CtxState) (s : Player) :
    List PStep → List Player
  | [] => []
  | st :: rest =>
    stepApply created st s :: statesAlong created (stepApply created st s) rest

/-- Final state after running a step list. -/
def runSteps (created : Option CtxState) (s : Player) :
    List PStep → Player
  | [] => s
  | st :: rest => runSteps created (stepApply created st s) rest

/-- The step sequence one load(url) triggers, in the order the React
runtime runs it on an audioUrl change: the reset effect, then the
cleanups of the two re-running effects in mount order, then their bodies
in mount order (effects run their cleanups before the new bodies). -/
def loadSteps (url : Option String) (ready : Bool) : List PStep :=
  [PStep.reset url, PStep.e2Clean, PStep.visClean,
   PStep.e2Body ready, PStep.visBody]

/-- The steps of load(a); load(b), each load optionally followed by a
late canplaythrough arrival for the sources that were not ready at
effect time. -/
def twoLoadSteps (a : Option String) (r1 : Bool) (e1 : Bool)
    (b : Option String) (r2 : Bool) (e2 : Bool) : List PStep :=
  loadSteps a r1 ++ (if e1 then [PStep.canPlay] else [])
    ++ loadSteps b r2 ++ (if e2 then [PStep.canPlay] else [])

/-- Structural well-formedness the component maintains between steps: the
lists of connected nodes are exactly the nodes held by the refs, the
live loops are exactly the loop owned by the pending visualization
cleanup, and the two node refs are set or cleared together (every code
path assigns or nulls them as a pair). -/
def WF (s : Player) : Prop :=
  s.boundSources = s.sourceRef.toList
    ∧ s.boundAnalysers = s.analyserRef.toList
    ∧ s.activeLoops = s.currentLoop.toList
    ∧ s.sourceRef.isSome = s.analyserRef.isSome

/- ===================== Helper lemmas (server) ===================== -/

theorem findUser_lower_none_iff (db : List UserRec) (email : String)
    (hinv : LowerInv db) :
    findUser db (lowerStr email) = none
      ↔ ∀ u ∈ db, lowerStr u.email ≠ lowerStr email := by
  induction db with
  | nil => simp [findUser]
  | cons u rest ih =>
    have hu : lowerStr u.email = u.email := hinv u (by simp)
    have hrest : LowerInv rest := fun v hv => hinv v (by simp [hv])
    unfold findUser
    by_cases heq : u.email = lowerStr email
    · constructor
      · intro hcontra
        rw [if_pos heq] at hcontra
        exact absurd hcontra (by simp)
      · intro hall
        exact absurd (hu.trans heq) (hall u (by simp))
    · rw [if_neg heq, ih hrest]
      constructor
      · intro hall v hv
        rcases List.mem_cons.mp hv with hv1 | hv2
        · rw [hv1, hu]
          exact heq
        · exact hall v hv2
      · intro hall v hv
        exact hall v (List.mem_cons_of_mem u hv)

theorem findUser_append_none (db : List UserRec) (u : UserRec) (k : String)
    (h : findUser db k = none) (hk : u.email = k) :
    findUser (db ++ [u]) k = some u := by
  induction db with
  | nil => simp [findUser, hk]
  | cons v rest ih =>
    by_cases hv : v.email = k
    · have : findUser (v :: rest) k = some v := by simp [findUser, hv]
      rw [this] at h
      exact absurd h (by simp)
    · have h2 : findUser rest k = none := by simpa [findUser, hv] using h
      simpa [findUser, hv] using ih h2

/- ===================== Claim theorems (server) ===================== -/

/-- C2: on POST /api/tts/:voiceId and POST /api/voices (as wired in the
part_009 server, which mounts authenticateToken on both), a request that
carries no bearer token is answered 401; a request whose token fails
verification (wrong signature, malformed, or expired) is answered 403;
and when the token verifies, the route runs the handler on the request
with the decoded claims attached as req.user. -/
theorem auth_middleware_gates_routes (apiKeyConfigured : Bool)
    (sek : String) (now : Nat) (r : Req) :
    (extractToken r = none →
        ttsRoute apiKeyConfigured (some sek) now r = Res.status 401
          ∧ addVoiceRoute apiKeyConfigured (some sek) now r = Res.status 401)
      ∧ (∀ t, extractToken r = some t → jwtVerify t sek now = none →
          ttsRoute apiKeyConfigured (some sek) now r = Res.status 403
            ∧ addVoiceRoute apiKeyConfigured (some sek) now r = Res.status 403)
      ∧ (∀ t c, extractToken r = some t → jwtVerify t sek now = some c →
          ttsRoute apiKeyConfigured (some sek) now r
              = ttsHandler apiKeyConfigured { r with user := some c }
            ∧ addVoiceRoute apiKeyConfigured (some sek) now r
              = addVoiceHandler apiKeyConfigured { r with user := some c }) := by
  refine ⟨?_, ?_, ?_⟩
  · intro hnone
    constructor <;>
      simp [ttsRoute, addVoiceRoute, runProtected, authenticateToken, hnone]
  · intro t ht hbad
    constructor <;>
      simp [ttsRoute, addVoiceRoute, runProtected, authenticateToken, ht, hbad]
  · intro t c ht hok
    constructor <;>
      simp [ttsRoute, addVoiceRoute, runProtected, authenticateToken, ht, hok]

def sekA : String := "server-secret"

def uidDemo : String := "u1"

def emDemo : String := "a@b.com"

def vidDemo : String := "v1"

def txtDemo : String := "hello"

def noStr : String := ""

def schemeWord : String := "Bearer"

def goodClaims : Claims := ⟨uidDemo, emDemo, 100⟩

def rNoToken : Req := ⟨none, none, vidDemo, txtDemo, noStr, 0⟩

def rExpired : Req :=
  ⟨some (schemeWord, some (Token.signed goodClaims sekA)), none, vidDemo,
   txtDemo, noStr, 0⟩

def rGood : Req :=
  ⟨some (schemeWord, some (Token.signed goodClaims sekA)), none, vidDemo,
   txtDemo, noStr, 0⟩

/-- Witness for C2 at concrete requests: no Authorization header gives
401; the very same signed token gives 403 once its expiry has passed
(time 200 against exp 100) and, before expiry (time 50), the handler
answer mentioning the decoded claims. -/
theorem auth_middleware_gates_routes_witness :
    ttsRoute true (some sekA) 50 rNoToken = Res.status 401
      ∧ ttsRoute true (some sekA) 200 rExpired = Res.status 403
      ∧ ttsRoute true (some sekA) 50 rGood
          = Res.audioStream vidDemo txtDemo (some goodClaims) := by
  refine ⟨?_, ?_, ?_⟩
  · exact ((auth_middleware_gates_routes true sekA 50 rNoToken).1 (by decide)).1
  · exact (((auth_middleware_gates_routes true sekA 200 rExpired).2.1
      (Token.signed goodClaims sekA) (by decide) (by decide))).1
  · have h := (((auth_middleware_gates_routes true sekA 50 rGood).2.2
      (Token.signed goodClaims sekA) goodClaims (by decide) (by decide))).1
    rw [h]
    decide

/-- C4: a failed login answers 401 with the identical generic message in
both failure modes: when no user row exists under the lowercased email,
and when a row exists but the stored bcrypt hash does not match the
submitted secret; an observer of the response cannot tell the two
apart. -/
theorem login_no_user_existence_leak (hash : String → String) (sek : String)
    (now : Nat) (db : List UserRec) (email password : String)
    (he : email ≠ "") (hp : password ≠ "") :
    (findUser db (lowerStr email) = none →
        loginHandler hash (some sek) now db email password
          = LoginRes.err 401 invalidCredMsg)
      ∧ (∀ u, findUser db (lowerStr email) = some u →
          u.password ≠ hash password →
          loginHandler hash (some sek) now db email password
            = LoginRes.err 401 invalidCredMsg) := by
  unfold loginHandler
  rw [if_neg (by simp [he, hp])]
  constructor
  · intro hfind
    rw [hfind]
  · intro u hfind hne
    rw [hfind]
    simp [hne]

def hashTag : String := "h#"

/-- Deterministic stand-in for bcrypt.hash at a fixed salt, used only to
build concrete witnesses. -/
def demoHash (p : String) : String := hashTag ++ p

def emA : String := "A@B.com"

def emB : String := "a@b.COM"

def emOther : String := "nobody@nowhere.org"

def pwA : String := "pw"

def pwWrong : String := "nope"

def uid0 : String := "0"

def dbDemo : List UserRec := [⟨uid0, lowerStr emA, demoHash pwA⟩]

/-- Witness for C4: against a store holding the user a@b.com, logging in
as an unknown email and logging in as the known email with a wrong
secret produce the very same 401 response. -/
theorem login_no_user_existence_leak_witness :
    loginHandler demoHash (some sekA) 0 dbDemo emOther pwA
        = LoginRes.err 401 invalidCredMsg
      ∧ loginHandler demoHash (some sekA) 0 dbDemo emA pwWrong
        = LoginRes.err 401 invalidCredMsg := by
  constructor
  · exact (login_no_user_existence_leak demoHash sekA 0 dbDemo emOther pwA
      (by decide) (by decide)).1 (by decide)
  · exact (login_no_user_existence_leak demoHash sekA 0 dbDemo emA pwWrong
      (by decide) (by decide)).2 ⟨uid0, lowerStr emA, demoHash pwA⟩
      (by decide) (by decide)

/-- C9: when the store already holds a row whose email equals the given
one up to case, register answers 409 and the store is unchanged; when it
holds none, register answers 201-style success carrying only a message
and the fresh user id; and the response is identical for any submitted
secret and any hash function, so neither the secret nor its hash can
appear in it. -/
theorem register_duplicate_and_secrecy (hash : String → String)
    (db : List UserRec) (email password : String)
    (he : email ≠ "") (hp : password ≠ "") (hinv : LowerInv db) :
    ((∃ u ∈ db, lowerStr u.email = lowerStr email) →
        registerHandler hash db email password = (RegRes.err 409 dupEmailMsg, db))
      ∧ ((∀ u ∈ db, lowerStr u.email ≠ lowerStr email) →
        registerHandler hash db email password
          = (RegRes.created regSuccessMsg (freshId db),
             db ++ [⟨freshId db, lowerStr email, hash password⟩]))
      ∧ (∀ (hash2 : String → String) (password2 : String), password2 ≠ "" →
        (registerHandler hash db email password).1
          = (registerHandler hash2 db email password2).1) := by
  refine ⟨?_, ?_, ?_⟩
  · intro hex
    have hfind : findUser db (lowerStr email) ≠ none := by
      rw [Ne, findUser_lower_none_iff db email hinv]
      push_neg
      obtain ⟨u, hu, hequ⟩ := hex
      exact ⟨u, hu, hequ⟩
    unfold registerHandler
    rw [if_neg (by simp [he, hp])]
    cases hcase : findUser db (lowerStr email) with
    | none => exact absurd hcase hfind
    | some u => rfl
  · intro hall
    have hfind : findUser db (lowerStr email) = none :=
      (findUser_lower_none_iff db email hinv).mpr hall
    unfold registerHandler
    rw [if_neg (by simp [he, hp]), hfind]
  · intro hash2 password2 hp2
    unfold registerHandler
    rw [if_neg (by simp [he, hp]), if_neg (by simp [he, hp2])]
    cases hcase : findUser db (lowerStr email) <;> rfl

def dbAfterA : List UserRec := (registerHandler demoHash [] emA pwA).2

def pwB : String := "pw2"

/-- Witness for C9: registering a@b.com and then registering the same
address in different case answers 409 and leaves the store as it was,
and the first response for two different secrets is identical. -/
theorem register_duplicate_and_secrecy_witness :
    registerHandler demoHash dbAfterA emB pwB
        = (RegRes.err 409 dupEmailMsg, dbAfterA)
      ∧ (registerHandler demoHash [] emA pwA).1
        = (registerHandler demoHash [] emA pwB).1 := by
  constructor
  · exact (register_duplicate_and_secrecy demoHash dbAfterA emB pwB
      (by decide) (by decide) (by unfold LowerInv; decide)).1
      ⟨⟨uid0, lowerStr emA, demoHash pwA⟩, by decide, by decide⟩
  · exact (register_duplicate_and_secrecy demoHash [] emA pwA
      (by decide) (by decide) (by unfold LowerInv; decide)).2.2 demoHash pwB
      (by decide)

/-- C10: registration keeps every stored email a fixed point of the
lowercase mapping, and a user registered under one casing can log in
under any other casing of the same address: after a successful
register(e1, password), login(e2, password) succeeds whenever e2 and e1
agree up to case, returning the stored (lowercased) email and the id the
registration minted. -/
theorem emails_stored_lowercase (hash : String → String) (sek : String)
    (now : Nat) (db : List UserRec) (e1 e2 password : String)
    (hinv : LowerInv db) :
    LowerInv (registerHandler hash db e1 password).2
      ∧ (findUser db (lowerStr e1) = none → e1 ≠ "" → password ≠ "" →
          e2 ≠ "" → lowerStr e2 = lowerStr e1 →
          loginHandler hash (some sek) now
              (registerHandler hash db e1 password).2 e2 password
            = LoginRes.ok loginSuccessMsg
                (Token.signed ⟨freshId db, lowerStr e1, now + tokenTtl⟩ sek)
                (freshId db) (lowerStr e1)) := by
  constructor
  · unfold registerHandler
    by_cases hfields : e1 = "" ∨ password = ""
    · rw [if_pos hfields]
      exact hinv
    · rw [if_neg hfields]
      cases hcase : findUser db (lowerStr e1) with
      | some u => exact hinv
      | none =>
        intro v hv
        rcases List.mem_append.mp hv with hv1 | hv2
        · exact hinv v hv1
        · have : v = ⟨freshId db, lowerStr e1, hash password⟩ := by
            simpa using hv2
          rw [this]
          exact lowerStr_idem e1
  · intro hfind he1 hp he2 hcase
    have hreg : (registerHandler hash db e1 password).2
        = db ++ [⟨freshId db, lowerStr e1, hash password⟩] := by
      unfold registerHandler
      rw [if_neg (by simp [he1, hp]), hfind]
    rw [hreg]
    unfold loginHandler
    rw [if_neg (by simp [he2, hp]), hcase,
      findUser_append_none db ⟨freshId db, lowerStr e1, hash password⟩
        (lowerStr e1) hfind rfl]
    simp

/-- Witness for C10: after registering the mixed-case address emA into an
empty store, logging in under the other casing emB with the same secret
succeeds and reports the lowercased stored email. -/
theorem emails_stored_lowercase_witness :
    loginHandler demoHash (some sekA) 0 (registerHandler demoHash [] emA pwA).2
        emB pwA
      = LoginRes.ok loginSuccessMsg
          (Token.signed ⟨freshId [], lowerStr emA, 0 + tokenTtl⟩ sekA)
          (freshId []) (lowerStr emA) := by
  exact (emails_stored_lowercase demoHash sekA 0 [] emA emB pwA
      (by unfold LowerInv; decide)).2
    (by decide) (by decide) (by decide) (by decide) (by decide)

/- ===================== Claim theorems (player transport) ===================== -/

def urlA : String := "blob:a"

def urlB : String := "blob:b"

/-- The player state right after mount, before any source is supplied:
every hook at its initial value and every ref empty. -/
def initialPlayer : Player :=
  ⟨none, false, false, 0, 0, false, none, none, none, none, none, none, 0,
   [], [], [], MediaDur.nan, 0⟩

/-- C5: togglePlayback is a no-op in the Empty state (no source url), the
Loading state (metadata latch still set), and the Error state (error
captured): the guard returns before touching anything, so the state is
unchanged and no transport command is issued and no error can be
raised. -/
theorem togglePlayPause_noop (created : Option CtxState) (mediaPaused : Bool)
    (s : Player)
    (h : s.audioUrl = none ∨ s.isLoadingMetadata = true ∨ s.errorMsg ≠ none) :
    togglePlayPause created mediaPaused s = (s, []) := by
  unfold togglePlayPause
  rcases h with h | h | h <;> rw [if_pos (by simp [h])]

/-- Witness for C5: toggling on the freshly mounted player (no source) and
on a loading player changes nothing and emits nothing. -/
theorem togglePlayPause_noop_witness :
    togglePlayPause (some CtxState.running) true initialPlayer
        = (initialPlayer, [])
      ∧ togglePlayPause none true
          { initialPlayer with
              audioUrl := some urlA, isLoadingMetadata := true }
        = ({ initialPlayer with
              audioUrl := some urlA, isLoadingMetadata := true }, []) := by
  constructor
  · exact togglePlayPause_noop (some CtxState.running) true initialPlayer
      (Or.inl rfl)
  · exact togglePlayPause_noop none true _ (Or.inr (Or.inl rfl))

/-- C6: playback never starts against a suspended context. Along the
events togglePlayPause emits, every play command executes with the
context not suspended; and in the branch where the context was found
suspended, the emitted sequence is exactly the completion of resume
followed by play, in that order. -/
theorem play_serialized_after_resume (created : Option CtxState)
    (mediaPaused : Bool) (s : Player) :
    playNeverSuspended (ensureAudioContext created s).1
        (togglePlayPause created mediaPaused s).2 = true
      ∧ (s.audioUrl ≠ none → s.isGenerating = false →
          s.isLoadingMetadata = false → s.errorMsg = none →
          (ensureAudioContext created s).1 = some CtxState.suspended →
          mediaPaused = true →
          (togglePlayPause created mediaPaused s).2
            = [TEv.resumeDone, TEv.playCmd]) := by
  by_cases hguard : s.audioUrl = none ∨ s.isGenerating = true
      ∨ s.isLoadingMetadata = true ∨ s.errorMsg ≠ none
  · constructor
    · rw [show (togglePlayPause created mediaPaused s).2 = [] from by
        unfold togglePlayPause
        rw [if_pos hguard]]
      simp [playNeverSuspended]
    · intro h1 h2 h3 h4 _ _
      rcases hguard with h | h | h | h
      · exact absurd h h1
      · rw [h2] at h
        exact absurd h (by simp)
      · rw [h3] at h
        exact absurd h (by simp)
      · exact absurd h4 h
  · have htog : togglePlayPause created mediaPaused s
        = (match ensureAudioContext created s with
          | (some CtxState.suspended, s1) =>
            let s2 := { s1 with ctx := some CtxState.running }
            if mediaPaused then
              ({ s2 with isPlaying := true }, [TEv.resumeDone, TEv.playCmd])
            else
              ({ s2 with isPlaying := false }, [TEv.resumeDone, TEv.pauseCmd])
          | (_, s1) =>
            if mediaPaused then
              ({ s1 with isPlaying := true }, [TEv.playCmd])
            else
              ({ s1 with isPlaying := false }, [TEv.pauseCmd])) := by
      unfold togglePlayPause
      rw [if_neg hguard]
    cases hens : ensureAudioContext created s with
    | mk copt s1 =>
      rw [hens] at htog
      constructor
      · cases copt with
        | none =>
          rw [show (togglePlayPause created mediaPaused s).2
              = (if mediaPaused then [TEv.playCmd] else [TEv.pauseCmd]) from by
            rw [htog]
            cases mediaPaused <;> rfl]
          cases mediaPaused <;>
            simp [playNeverSuspended, ctxAfterEv]
        | some c =>
          cases c with
          | suspended =>
            rw [show (togglePlayPause created mediaPaused s).2
                = (if mediaPaused then [TEv.resumeDone, TEv.playCmd]
                   else [TEv.resumeDone, TEv.pauseCmd]) from by
              rw [htog]
              cases mediaPaused <;> rfl]
            cases mediaPaused <;>
              simp [playNeverSuspended, ctxAfterEv]
          | running =>
            rw [show (togglePlayPause created mediaPaused s).2
                = (if mediaPaused then [TEv.playCmd] else [TEv.pauseCmd]) from by
              rw [htog]
              cases mediaPaused <;> rfl]
            cases mediaPaused <;>
              simp [playNeverSuspended, ctxAfterEv]
          | closed =>
            rw [show (togglePlayPause created mediaPaused s).2
                = (if mediaPaused then [TEv.playCmd] else [TEv.pauseCmd]) from by
              rw [htog]
              cases mediaPaused <;> rfl]
            cases mediaPaused <;>
              simp [playNeverSuspended, ctxAfterEv]
      · intro _ _ _ _ hsusp hmp
        have hc : copt = some CtxState.suspended := hsusp
        subst hc
        rw [htog, hmp]
        rfl

/-- A loaded, idle player whose context the autoplay policy left
suspended. -/
def suspendedPlayer : Player :=
  { initialPlayer with
      audioUrl := some urlA
      ctx := some CtxState.suspended }

/-- Witness for C6: on a loaded player with a suspended context, toggling
emits resume-completion and only then play, and every play in the trace
runs against a non-suspended context. -/
theorem play_serialized_after_resume_witness :
    playNeverSuspended (ensureAudioContext none suspendedPlayer).1
        (togglePlayPause none true suspendedPlayer).2 = true
      ∧ (togglePlayPause none true suspendedPlayer).2
        = [TEv.resumeDone, TEv.playCmd] := by
  constructor
  · exact (play_serialized_after_resume none true suspendedPlayer).1
  · exact (play_serialized_after_resume none true suspendedPlayer).2
      (by decide) (by decide) (by decide) (by decide) (by decide) (by decide)

/-- C7: teardown is idempotent and resource-safe: running the full unmount
cleanup a second time changes nothing and attempts no further close;
after any teardown no animation frame remains scheduled and no render
loop is live; at most one context close is ever attempted, and one is
attempted exactly when a context exists that is not already closed. -/
theorem teardown_idempotent (s : Player) :
    teardown (teardown s).1 = ((teardown s).1, 0)
      ∧ (teardown s).1.animFrame = none
      ∧ (teardown s).1.activeLoops = (visCleanup (effect2Cleanup s)).activeLoops
      ∧ (teardown s).2 ≤ 1
      ∧ ((teardown s).2 = 1 ↔ ∃ c, s.ctx = some c ∧ c ≠ CtxState.closed) := by
  obtain ⟨url, gen, pl, pr, du, lm, er, ctx, sr, ar, af, cl, ni, bs, ba, al, md, mc⟩ := s
  cases ctx with
  | none =>
    cases sr <;> cases ar <;> cases cl <;>
      simp [teardown, effect2Cleanup, visCleanup, ctxCleanup]
  | some c =>
    cases c <;> cases sr <;> cases ar <;> cases cl <;>
      simp [teardown, effect2Cleanup, visCleanup, ctxCleanup]

/- ===================== Claim theorems (seek and metadata) ===================== -/

/-- Clamp of a value into a closed interval. -/
def clampRat (lo hi x : Rat) : Rat :=
  if x < lo then lo else if hi < x then hi else x

/-- Formalization of claim C3 as stated: with a known finite total
duration, a seek lands on the clamp of the requested position into the
interval from 0 to the total duration. -/
def seekClampedClaim : Prop :=
  ∀ (s : Player) (x : Rat), s.mediaDuration = MediaDur.fin s.duration →
    (handleSeek s x).progress = clampRat 0 s.duration x

/-- A ready player with a known 10-second duration. -/
def seekDemo : Player :=
  { initialPlayer with
      audioUrl := some urlA
      duration := 10
      mediaDuration := MediaDur.fin 10 }

/-- C3 counterexample: on a player with total duration 10, handleSeek 15
stores position 15 (and handleSeek (-3) stores -3): the handler performs
no clamping, so the claimed clamp to the duration interval is false. -/
theorem seek_clamp_cex : ¬ seekClampedClaim := by
  intro h
  have h15 := h seekDemo 15 rfl
  exact absurd h15 (by decide)

/-- C3 amended: when the element duration is finite, handleSeek assigns
the raw requested position, unclamped, both to the media element and to
the immediately updated progress state (the optimistic immediate update
the claim describes does happen, but with the raw value); with a
non-finite duration the call does nothing. -/
theorem seek_sets_raw_position (s : Player) (x : Rat) :
    (handleSeek s x).progress
        = (if s.mediaDuration.isFin = true then x else s.progress)
      ∧ (handleSeek s x).mediaCurrentTime
        = (if s.mediaDuration.isFin = true then x else s.mediaCurrentTime)
      ∧ (handleSeek s x).duration = s.duration := by
  unfold handleSeek
  split <;> simp_all

/-- Formalization of claim C8 as stated: a metadata signal changes the
accepted duration state (or clears the waiting latch) only for a finite,
strictly positive reported value. -/
def metadataOnlyFinitePositive : Prop :=
  ∀ (s : Player) (d : MediaDur),
    ((handleLoadedMetadata s d).duration ≠ s.duration
        ∨ (handleLoadedMetadata s d).isLoadingMetadata ≠ s.isLoadingMetadata) →
      ∃ q : Rat, d = MediaDur.fin q ∧ 0 < q

/-- A loading player whose previous duration state is 5. -/
def metaDemo : Player :=
  { initialPlayer with
      audioUrl := some urlA
      duration := 5
      isLoadingMetadata := true }

/-- C8 counterexample: the loadedmetadata handler checks only finiteness,
so a reported duration of 0 (finite, not strictly positive) is accepted
as definitive: it overwrites the duration state with 0 and clears the
waiting latch, refuting the claim that only finite strictly positive
values are ever accepted. -/
theorem metadata_accept_cex : ¬ metadataOnlyFinitePositive := by
  intro h
  obtain ⟨q, hq, hpos⟩ := h metaDemo (MediaDur.fin 0)
    (by right; decide)
  have hq0 : q = 0 := by
    injection hq with h0
    exact h0.symm
  rw [hq0] at hpos
  exact absurd hpos (by norm_num)

/-- C8 amended: the durationchange handler accepts exactly the finite
strictly positive reported values; the loadedmetadata handler accepts
every finite reported value, including non-positive ones; neither
handler ever accepts a non-finite value, so the duration state is never
set to NaN or Infinity by a metadata signal. -/
theorem metadata_acceptance (s : Player) (d : MediaDur) :
    (handleLoadedMetadata s d).duration
        = (match d with | MediaDur.fin q => q | _ => s.duration)
      ∧ (handleLoadedMetadata s d).isLoadingMetadata
        = (match d with | MediaDur.fin _ => false | _ => s.isLoadingMetadata)
      ∧ (handleDurationChange s d).duration
        = (match d with
            | MediaDur.fin q => if 0 < q then q else s.duration
            | _ => s.duration)
      ∧ (handleDurationChange s d).isLoadingMetadata
        = (match d with
            | MediaDur.fin q => if 0 < q then false else s.isLoadingMetadata
            | _ => s.isLoadingMetadata) := by
  cases d with
  | nan => simp [handleLoadedMetadata, handleDurationChange]
  | inf => simp [handleLoadedMetadata, handleDurationChange]
  | fin q =>
    refine ⟨rfl, rfl, ?_, ?_⟩ <;>
      · simp only [handleDurationChange]
        split <;> simp

/- ===================== Helper lemmas (load sequencing) ===================== -/

theorem WF_lengths (s : Player) (h : WF s) :
    s.boundSources.length ≤ 1 ∧ s.activeLoops.length ≤ 1 := by
  obtain ⟨h1, -, h3, -⟩ := h
  constructor
  · rw [h1]
    cases s.sourceRef <;> simp [Option.toList]
  · rw [h3]
    cases s.currentLoop <;> simp [Option.toList]

theorem effect1Reset_spec (s : Player) (url : Option String) (h : WF s) :
    WF (effect1Reset s url)
      ∧ (effect1Reset s url).isPlaying = false
      ∧ (effect1Reset s url).audioUrl = url := by
  obtain ⟨h1, h2, h3, h4⟩ := h
  exact ⟨⟨h1, h2, h3, h4⟩, rfl, rfl⟩

theorem effect2Cleanup_spec (s : Player) (h : WF s) :
    WF (effect2Cleanup s)
      ∧ (effect2Cleanup s).boundSources = []
      ∧ (effect2Cleanup s).boundAnalysers = []
      ∧ (effect2Cleanup s).sourceRef = none
      ∧ (effect2Cleanup s).analyserRef = none
      ∧ (effect2Cleanup s).currentLoop = s.currentLoop
      ∧ (effect2Cleanup s).activeLoops = s.activeLoops
      ∧ (effect2Cleanup s).isPlaying = s.isPlaying
      ∧ (effect2Cleanup s).audioUrl = s.audioUrl := by
  obtain ⟨url, gen, pl, pr, du, lm, er, ctx, sr, ar, af, cl, ni, bs, ba, al, md, mc⟩ := s
  obtain ⟨h1, h2, h3, h4⟩ := h
  cases sr <;> cases ar <;>
    simp_all [effect2Cleanup, WF, Option.toList, List.erase_cons_head]

theorem visCleanup_spec (s : Player) (h : WF s) :
    WF (visCleanup s)
      ∧ (visCleanup s).currentLoop = none
      ∧ (visCleanup s).activeLoops = []
      ∧ (visCleanup s).animFrame = none
      ∧ (visCleanup s).isPlaying = s.isPlaying
      ∧ (visCleanup s).audioUrl = s.audioUrl
      ∧ (visCleanup s).sourceRef = s.sourceRef
      ∧ (visCleanup s).analyserRef = s.analyserRef
      ∧ (visCleanup s).boundSources = s.boundSources
      ∧ (visCleanup s).boundAnalysers = s.boundAnalysers := by
  obtain ⟨url, gen, pl, pr, du, lm, er, ctx, sr, ar, af, cl, ni, bs, ba, al, md, mc⟩ := s
  obtain ⟨h1, h2, h3, h4⟩ := h
  cases cl <;>
    simp_all [visCleanup, WF, Option.toList, List.erase_cons_head]

theorem setupAudioNodes_spec (created : Option CtxState) (s : Player)
    (h : WF s) :
    WF (setupAudioNodes created s)
      ∧ (setupAudioNodes created s).isPlaying = s.isPlaying
      ∧ (setupAudioNodes created s).currentLoop = s.currentLoop
      ∧ (setupAudioNodes created s).activeLoops = s.activeLoops
      ∧ (setupAudioNodes created s).audioUrl = s.audioUrl
      ∧ (s.sourceRef.isSome = true →
          (setupAudioNodes created s).sourceRef = s.sourceRef
            ∧ (setupAudioNodes created s).analyserRef = s.analyserRef
            ∧ (setupAudioNodes created s).boundSources = s.boundSources
            ∧ (setupAudioNodes created s).boundAnalysers = s.boundAnalysers
            ∧ (setupAudioNodes created s).nextId = s.nextId) := by
  obtain ⟨url, gen, pl, pr, du, lm, er, ctx, sr, ar, af, cl, ni, bs, ba, al, md, mc⟩ := s
  obtain ⟨h1, h2, h3, h4⟩ := h
  cases ctx <;> cases created <;> cases sr <;> cases ar <;>
    simp_all [setupAudioNodes, ensureAudioContext, WF, Option.toList]

theorem visBody_spec (s : Player) (h : WF s) (hp : s.isPlaying = false) :
    WF (visBody s) ∧ (visBody s).isPlaying = false := by
  obtain ⟨h1, h2, h3, h4⟩ := h
  unfold visBody
  rw [if_neg (by simp [hp])]
  exact ⟨⟨h1, h2, h3, h4⟩, hp⟩

theorem effect2Body_spec (created : Option CtxState) (ready : Bool)
    (s : Player) (h : WF s) :
    WF (effect2Body created ready s)
      ∧ (effect2Body created ready s).isPlaying = s.isPlaying
      ∧ (effect2Body created ready s).currentLoop = s.currentLoop
      ∧ (effect2Body created ready s).activeLoops = s.activeLoops := by
  cases hu : s.audioUrl with
  | none =>
    have hb : effect2Body created ready s = effect2Cleanup s := by
      unfold effect2Body
      rw [hu]
    obtain ⟨w, -, -, -, -, c1, c2, c3, -⟩ := effect2Cleanup_spec s h
    rw [hb]
    exact ⟨w, c3, c1, c2⟩
  | some u =>
    have hb : effect2Body created ready s
        = if ready then setupAudioNodes created s else s := by
      unfold effect2Body
      rw [hu]
    rw [hb]
    cases ready with
    | false =>
      rw [if_neg (by simp)]
      exact ⟨h, rfl, rfl, rfl⟩
    | true =>
      rw [if_pos rfl]
      obtain ⟨w, pi, pc, pa, -, -⟩ := setupAudioNodes_spec created s h
      exact ⟨w, pi, pc, pa⟩

theorem loadSteps_spec (created : Option CtxState) (s : Player)
    (url : Option String) (ready : Bool) (h : WF s) :
    (∀ t ∈ statesAlong created s (loadSteps url ready), WF t)
      ∧ WF (runSteps created s (loadSteps url ready))
      ∧ (runSteps created s (loadSteps url ready)).isPlaying = false := by
  obtain ⟨w1, p1, -⟩ := effect1Reset_spec s url h
  obtain ⟨w2, -, -, -, -, -, -, p2, -⟩ :=
    effect2Cleanup_spec (effect1Reset s url) w1
  obtain ⟨w3, -, -, -, p3, -, -, -, -, -⟩ :=
    visCleanup_spec (effect2Cleanup (effect1Reset s url)) w2
  obtain ⟨w4, p4, -, -⟩ :=
    effect2Body_spec created ready
      (visCleanup (effect2Cleanup (effect1Reset s url))) w3
  have hp4 : (effect2Body created ready
      (visCleanup (effect2Cleanup (effect1Reset s url)))).isPlaying = false := by
    rw [p4, p3, p2, p1]
  obtain ⟨w5, p5⟩ :=
    visBody_spec (effect2Body created ready
      (visCleanup (effect2Cleanup (effect1Reset s url)))) w4 hp4
  refine ⟨?_, w5, p5⟩
  intro t ht
  simp only [loadSteps, statesAlong, stepApply, List.mem_cons,
    List.not_mem_nil, or_false] at ht
  rcases ht with h | h | h | h | h <;> rw [h]
  exacts [w1, w2, w3, w4, w5]

theorem statesAlong_append (created : Option CtxState) (s : Player)
    (l1 l2 : List PStep) :
    statesAlong created s (l1 ++ l2)
      = statesAlong created s l1
          ++ statesAlong created (runSteps created s l1) l2 := by
  induction l1 generalizing s with
  | nil => simp [statesAlong, runSteps]
  | cons st rest ih => simp [statesAlong, runSteps, ih]

theorem runSteps_append (created : Option CtxState) (s : Player)
    (l1 l2 : List PStep) :
    runSteps created s (l1 ++ l2)
      = runSteps created (runSteps created s l1) l2 := by
  induction l1 generalizing s with
  | nil => simp [runSteps]
  | cons st rest ih => simp [runSteps, ih]

/-- A step list is safe when, started from any well-formed state, it keeps
every intermediate state well-formed and ends well-formed. -/
def SafeSteps (created : Option CtxState) (l : List PStep) : Prop :=
  ∀ s : Player, WF s →
    (∀ t ∈ statesAlong created s l, WF t) ∧ WF (runSteps created s l)

theorem SafeSteps_append (created : Option CtxState) (l1 l2 : List PStep)
    (h1 : SafeSteps created l1) (h2 : SafeSteps created l2) :
    SafeSteps created (l1 ++ l2) := by
  intro s hs
  obtain ⟨a1, a2⟩ := h1 s hs
  obtain ⟨b1, b2⟩ := h2 (runSteps created s l1) a2
  constructor
  · intro t ht
    rw [statesAlong_append] at ht
    rcases List.mem_append.mp ht with ht | ht
    · exact a1 t ht
    · exact b1 t ht
  · rw [runSteps_append]
    exact b2

theorem SafeSteps_loadSteps (created : Option CtxState)
    (url : Option String) (ready : Bool) :
    SafeSteps created (loadSteps url ready) := fun s hs =>
  ⟨(loadSteps_spec created s url ready hs).1,
   (loadSteps_spec created s url ready hs).2.1⟩

theorem SafeSteps_canPlaySeg (created : Option CtxState) (e : Bool) :
    SafeSteps created (if e then [PStep.canPlay] else []) := by
  intro s hs
  cases e with
  | false => simpa [statesAlong, runSteps] using hs
  | true =>
    have hsetup := (setupAudioNodes_spec created s hs).1
    constructor
    · intro t ht
      simp only [if_pos, statesAlong, stepApply, List.mem_cons,
        List.not_mem_nil, or_false] at ht
      rw [ht]
      exact hsetup
    · simpa [statesAlong, runSteps, stepApply] using hsetup

theorem SafeSteps_twoLoad (created : Option CtxState)
    (a b : Option String) (r1 e1 r2 e2 : Bool) :
    SafeSteps created (twoLoadSteps a r1 e1 b r2 e2) := by
  unfold twoLoadSteps
  exact SafeSteps_append created _ _
    (SafeSteps_append created _ _
      (SafeSteps_append created _ _
        (SafeSteps_loadSteps created a r1)
        (SafeSteps_canPlaySeg created e1))
      (SafeSteps_loadSteps created b r2))
    (SafeSteps_canPlaySeg created e2)

/- ===================== Claim theorem (node and loop uniqueness) ===================== -/

/-- C1: along any load(a); load(b) sequence (each load optionally followed
by a late canplaythrough arrival), every intermediate state of a
well-formed mounted player has at most one media-element source node
connected and at most one render loop live; moreover setupAudioNodes
skips creation entirely when a source node is already bound (the
idempotency guard), and the previous node is disconnected by the effect
cleanup before the body that creates the new one runs, which is the
order the trace encodes. -/
theorem load_sequence_single_binding (created : Option CtxState) (s : Player)
    (a b : Option String) (r1 e1 r2 e2 : Bool) (hWF : WF s) :
    (∀ t ∈ statesAlong created s (twoLoadSteps a r1 e1 b r2 e2),
        t.boundSources.length ≤ 1 ∧ t.activeLoops.length ≤ 1)
      ∧ (s.sourceRef.isSome = true →
          (setupAudioNodes created s).sourceRef = s.sourceRef
            ∧ (setupAudioNodes created s).boundSources = s.boundSources
            ∧ (setupAudioNodes created s).nextId = s.nextId) := by
  constructor
  · intro t ht
    exact WF_lengths t
      ((SafeSteps_twoLoad created a b r1 e1 r2 e2 s hWF).1 t ht)
  · intro hsrc
    obtain ⟨-, -, -, -, -, himp⟩ := setupAudioNodes_spec created s hWF
    obtain ⟨g1, -, g3, -, g5⟩ := himp hsrc
    exact ⟨g1, g3, g5⟩

/-- A mounted player with a source node and analyser already bound. -/
def boundPlayer : Player :=
  { initialPlayer with
      audioUrl := some urlA
      sourceRef := some 0
      analyserRef := some 1
      boundSources := [0]
      boundAnalysers := [1]
      nextId := 2 }

/-- Witness for C1: running load(a); load(b) on the freshly mounted player
keeps at most one source node and one live loop at the final state of
the trace, and calling setupAudioNodes on a player that already has a
bound node creates nothing. -/
theorem load_sequence_single_binding_witness :
    ((runSteps (some CtxState.running) initialPlayer
          (twoLoadSteps (some urlA) true false (some urlB) true false)).boundSources.length ≤ 1
        ∧ (runSteps (some CtxState.running) initialPlayer
          (twoLoadSteps (some urlA) true false (some urlB) true false)).activeLoops.length ≤ 1)
      ∧ (setupAudioNodes (some CtxState.running) boundPlayer).boundSources
        = boundPlayer.boundSources := by
  constructor
  · exact (load_sequence_single_binding (some CtxState.running) initialPlayer
        (some urlA) (some urlB) true false true false
        ⟨rfl, rfl, rfl, rfl⟩).1
      (runSteps (some CtxState.running) initialPlayer
        (twoLoadSteps (some urlA) true false (some urlB) true false))
      (by decide)
  · exact ((load_sequence_single_binding (some CtxState.running) boundPlayer
        (some urlA) (some urlB) true false true false
        ⟨rfl, rfl, rfl, rfl⟩).2 rfl).2.1

end AudioGreeting
